import Mathlib

/-!
Verification of the Q-Audit report parser, statistics engine and resimulation
transform, shallowly embedded from the TypeScript sources
(`src/utils/parser.ts`, `src/utils/statistics.ts`,
`src/components/Simulation.tsx`).

Modelling conventions:
* JavaScript numbers are modelled as exact rationals; the narrow places where
  JavaScript `NaN` or `Infinity` can leak into an observable value are modelled
  explicitly (`Option` for `parseFloat` results, `JSNum` for the percentage
  strings built by the statistics engine).
* An HTML document, after `DOMParser`, is modelled as the list of its table
  rows, each row the list of the text contents of its `td` cells; the
  document-wide `querySelectorAll td` list is the flattening of the rows.
* `new Date(str).getTime()` is modelled by an optional chronological key:
  `some` of the six calendar fields combined positionally (year, month, day,
  hour, minute, second) when the string is one of the accepted date shapes
  with in-range components, which is order-isomorphic to the millisecond
  clock there, and `none` for an Invalid Date, whose `getTime()` is `NaN`.
  The sort comparator `a.date.getTime() - b.date.getTime()` then returns
  `NaN` on such a pair; per the ECMAScript `CompareArrayElements` step a
  `NaN` comparator result is treated as `+0`, so the stable sort treats the
  pair as equal and keeps the original order.
* A thrown JavaScript `TypeError` is modelled as `Except.error ()`.
-/

attribute [local semireducible] Rat.add Rat.mul Rat.inv Rat.sub Rat.ofScientific

deriving instance DecidableEq for Except

namespace QAudit

/-- Character class of the JavaScript regular expression `\s` restricted to the
ASCII whitespace characters that can occur in the reports. -/
def isJsSpace (c : Char) : Bool :=
  c == ' ' || c == '\t' || c == '\n' || c == '\r' || c == '\x0b' || c == '\x0c'

/-- Numeric value of a list of decimal digit characters, most significant
first. -/
def natOfDigits (cs : List Char) : ℕ :=
  cs.foldl (fun n c => n * 10 + (c.toNat - 48)) 0

/-- Model of `String.prototype.startsWith` on character lists: the first
argument is a prefix of the second. -/
def leadsWith : List Char → List Char → Bool
  | [], _ => true
  | _ :: _, [] => false
  | a :: as, b :: bs => a == b && leadsWith as bs

/-- Model of `String.prototype.includes` on character lists: the first argument
occurs as a contiguous run inside the second. -/
def hasSub (needle : List Char) : List Char → Bool
  | [] => needle.isEmpty
  | c :: t => leadsWith needle (c :: t) || hasSub needle t

/-- Index access `xs[i]` of a JavaScript array: `none` models `undefined`. -/
def nth {α : Type} : List α → ℕ → Option α
  | [], _ => none
  | c :: _, 0 => some c
  | _ :: t, n + 1 => nth t n

/-- Model of `Array.prototype.findIndex`, with `none` for the sentinel `-1`. -/
def findIdxQ {α : Type} (p : α → Bool) : List α → Option ℕ
  | [] => none
  | c :: t => if p c then some 0 else (findIdxQ p t).map (· + 1)

/-- Model of `String.prototype.trim` on character lists: drop whitespace from
both ends. -/
def trimChars (cs : List Char) : List Char :=
  ((cs.dropWhile isJsSpace).reverse.dropWhile isJsSpace).reverse

/-- Trimmed character list of a string. -/
def trimList (s : String) : List Char :=
  trimChars s.toList

/-- Model of `String.prototype.toLowerCase` on character lists. -/
def lowerChars (cs : List Char) : List Char :=
  cs.map Char.toLower

/-- Model of the JavaScript `parseFloat` builtin on the inputs the parser feeds
it: optional sign, decimal mantissa, optional exponent.  `none` models a
non-finite result (`NaN`, or `Infinity` from an explicit `Infinity` literal),
which every caller in the source collapses to `0` via an `isFinite` guard or a
`|| 0` coercion. -/
def jsParseFloatChars (cs0 : List Char) : Option ℚ :=
  let cs1 := cs0.dropWhile isJsSpace
  let signed : Bool × List Char :=
    match cs1 with
    | '-' :: r => (true, r)
    | '+' :: r => (false, r)
    | _ => (false, cs1)
  let neg := signed.1
  let cs2 := signed.2
  if leadsWith "Infinity".toList cs2 then none
  else
    let ip := cs2.takeWhile Char.isDigit
    let cs3 := cs2.dropWhile Char.isDigit
    let fracd : List Char × List Char :=
      match cs3 with
      | '.' :: r => (r.takeWhile Char.isDigit, r.dropWhile Char.isDigit)
      | _ => ([], cs3)
    let fp := fracd.1
    let cs4 := fracd.2
    if ip.isEmpty && fp.isEmpty then none
    else
      let mant : ℚ := (natOfDigits ip : ℚ) + (natOfDigits fp : ℚ) / (10 : ℚ) ^ fp.length
      let withExp : ℚ :=
        match cs4 with
        | e :: r =>
          if e == 'e' || e == 'E' then
            let esigned : Bool × List Char :=
              match r with
              | '-' :: r3 => (true, r3)
              | '+' :: r3 => (false, r3)
              | _ => (false, r)
            let ed := esigned.2.takeWhile Char.isDigit
            if ed.isEmpty then mant
            else if esigned.1 then mant / (10 : ℚ) ^ natOfDigits ed
            else mant * (10 : ℚ) ^ natOfDigits ed
          else mant
        | [] => mant
      some (if neg then -withExp else withExp)

/-- The three dash variants normalised by `cleanVal`: en dash, em dash and the
Unicode minus sign. -/
def dashChar (c : Char) : Bool :=
  c == '–' || c == '—' || c == '−'

/-- Normalise a dash variant to the ASCII hyphen, as in
`replace(/[–—−]/g, '-')`. -/
def normDash (c : Char) : Char :=
  if dashChar c then '-' else c

/-- Removal of every whitespace character, as in the composition
`trim().replace(/\s/g, '')` of the source (the trim is subsumed by the global
replacement). -/
def stripSpaces (cs : List Char) : List Char :=
  cs.filter (fun c => !isJsSpace c)

/-- Model of `replace(',', '.')`, which replaces only the first comma. -/
def replaceFirstComma : List Char → List Char
  | [] => []
  | c :: t => if c == ',' then '.' :: t else c :: replaceFirstComma t

/-- Body of `cleanVal` after the falsy-input guard, from `parser.ts`: strip
whitespace, normalise dashes, resolve the comma convention, parse, and collapse
a non-finite result to `0`. -/
def processNum (cs : List Char) : ℚ :=
  let a := (stripSpaces cs).map normDash
  let b :=
    if a.contains ',' && !(a.contains '.') then replaceFirstComma a
    else a.filter (fun c => c != ',')
  (jsParseFloatChars b).getD 0

/-- The locale-robust numeric-cell parser `cleanVal` of `parser.ts`; `none`
models an `undefined` argument and the empty string is falsy, both yielding
`0`. -/
def cleanVal : Option String → ℚ
  | none => 0
  | some t => if t.toList.isEmpty then 0 else processNum t.toList

/-- One ledger row accepted by the parser, from the `DataPoint` interface of
`parser.ts`.  `dateKey` models the `date` field (see the header comment);
`profit` is the net profit `rawProfit + swap + commission`. -/
structure DataPoint where
  time : String
  balance : ℚ
  profit : ℚ
  volume : ℚ
  dateKey : Option ℕ
  type : Option String := none
  swap : Option ℚ := none
  commission : Option ℚ := none
  rawProfit : Option ℚ := none
deriving DecidableEq, Inhabited

/-- The decision of the sort comparator
`(a, b) => a.date.getTime() - b.date.getTime()` that `a` sorts no later than
`b`: on valid dates the numeric comparison, and on any pair involving an
Invalid Date the comparator returns `NaN`, which `CompareArrayElements`
treats as `+0` — a tie that the stable sort resolves by keeping the original
order, so the earlier element stays in front. -/
def jsLeKey (a b : DataPoint) : Bool :=
  match a.dateKey, b.dateKey with
  | some x, some y => decide (x ≤ y)
  | _, _ => true

/-- Metric lookup `getVal` of `processData`: find the first `td` whose trimmed
text starts with the label and return the trimmed text of the next cell;
`none` models the `undefined` produced when the labelled cell is the last one,
and a missing label yields the string `"0"`. -/
def getVal (cells : List String) (label : String) : Option String :=
  match findIdxQ (fun c => leadsWith label.toList (trimList c)) cells with
  | some i => (nth cells (i + 1)).map (fun s => String.mk (trimList s))
  | none => some "0"

/-- The discriminating time pattern `^\d{4}\.\d{2}\.\d{2}` applied to a row's
time cell. -/
def timePat (s : String) : Bool :=
  match s.toList with
  | y1 :: y2 :: y3 :: y4 :: p1 :: m1 :: m2 :: p2 :: d1 :: d2 :: _ =>
    y1.isDigit && y2.isDigit && y3.isDigit && y4.isDigit && p1 == '.' &&
      m1.isDigit && m2.isDigit && p2 == '.' && d1.isDigit && d2.isDigit
  | _ => false

/-- Gregorian leap-year test, for the validity check of a parsed date. -/
def isLeap (y : ℕ) : Bool :=
  (y % 4 == 0 && y % 100 != 0) || y % 400 == 0

/-- Number of days of a month, for the validity check of a parsed date. -/
def daysInMonth (y m : ℕ) : ℕ :=
  if m = 2 then (if isLeap y then 29 else 28)
  else if m = 4 ∨ m = 6 ∨ m = 9 ∨ m = 11 then 30
  else 31

/-- Numeric value of a two-digit character pair. -/
def twoDigits (a b : Char) : ℕ :=
  (a.toNat - 48) * 10 + (b.toNat - 48)

/-- Chronological key of calendar components, provided they are in range;
out-of-range components give an Invalid Date, whose `getTime()` is `NaN`,
modelled as `none`. -/
def dateKeyParts (y mo d h mi se : ℕ) : Option ℕ :=
  if 1 ≤ mo ∧ mo ≤ 12 ∧ 1 ≤ d ∧ d ≤ daysInMonth y mo ∧ h ≤ 23 ∧ mi ≤ 59 ∧ se ≤ 59 then
    some ((((((y * 100 + mo) * 100 + d) * 100 + h) * 100 + mi) * 100 + se))
  else none

/-- Model of `new Date(timeStr.replace(/\./g, '-')).getTime()`: the date
shapes the reports use (`YYYY.MM.DD`, optionally followed by ` HH:MM` or
` HH:MM:SS`) parse to a chronological key when their components are in range;
every other string, and every out-of-range component, is an Invalid Date,
modelled as `none` (`NaN`). -/
def dateKeyOf (s : String) : Option ℕ :=
  match s.toList with
  | [y1, y2, y3, y4, p1, mo1, mo2, p2, d1, d2] =>
    if y1.isDigit && y2.isDigit && y3.isDigit && y4.isDigit && p1 == '.' &&
        mo1.isDigit && mo2.isDigit && p2 == '.' && d1.isDigit && d2.isDigit then
      dateKeyParts (twoDigits y1 y2 * 100 + twoDigits y3 y4) (twoDigits mo1 mo2)
        (twoDigits d1 d2) 0 0 0
    else none
  | [y1, y2, y3, y4, p1, mo1, mo2, p2, d1, d2, sp, h1, h2, c1, n1, n2] =>
    if y1.isDigit && y2.isDigit && y3.isDigit && y4.isDigit && p1 == '.' &&
        mo1.isDigit && mo2.isDigit && p2 == '.' && d1.isDigit && d2.isDigit &&
        sp == ' ' && h1.isDigit && h2.isDigit && c1 == ':' && n1.isDigit && n2.isDigit then
      dateKeyParts (twoDigits y1 y2 * 100 + twoDigits y3 y4) (twoDigits mo1 mo2)
        (twoDigits d1 d2) (twoDigits h1 h2) (twoDigits n1 n2) 0
    else none
  | [y1, y2, y3, y4, p1, mo1, mo2, p2, d1, d2, sp, h1, h2, c1, n1, n2, c2, s1, s2] =>
    if y1.isDigit && y2.isDigit && y3.isDigit && y4.isDigit && p1 == '.' &&
        mo1.isDigit && mo2.isDigit && p2 == '.' && d1.isDigit && d2.isDigit &&
        sp == ' ' && h1.isDigit && h2.isDigit && c1 == ':' && n1.isDigit && n2.isDigit &&
        c2 == ':' && s1.isDigit && s2.isDigit then
      dateKeyParts (twoDigits y1 y2 * 100 + twoDigits y3 y4) (twoDigits mo1 mo2)
        (twoDigits d1 d2) (twoDigits h1 h2) (twoDigits n1 n2) (twoDigits s1 s2)
    else none
  | _ => none

/-- The JavaScript comparison `t1 <= t2` between two `getTime()` values: any
comparison against `NaN` (an Invalid Date, modelled `none`) is false. -/
def jsLeTime : Option ℕ → Option ℕ → Bool
  | some x, some y => decide (x ≤ y)
  | _, _ => false

/-- Resolved column indices of the deals table.  The defaults are the
positional fallbacks of `processData`; `none` for swap and commission models
the `-1` sentinel. -/
structure Idxs where
  vol : ℕ := 5
  profit : ℕ := 10
  bal : ℕ := 11
  time : ℕ := 0
  ty : ℕ := 2
  swap : Option ℕ := none
  comm : Option ℕ := none
deriving DecidableEq

/-- Header-row discriminator: the concatenated, lower-cased row text must
contain both `time` and `profit`. -/
def rowIsHeader (row : List String) : Bool :=
  let t := lowerChars (row.map String.toList).flatten
  hasSub "time".toList t && hasSub "profit".toList t

/-- Keyword search over the header cells, as in the `findIdx` helper of
`processData` (the `h === k` disjunct is subsumed by `h.includes(k)`). -/
def findIdxKw (kws : List String) (hc : List (List Char)) : Option ℕ :=
  findIdxQ (fun h => kws.any (fun k => hasSub k.toList h)) hc

/-- Dynamic column detection of `processData`: locate the header row and
resolve each semantic column by keywords, keeping the positional default when
a keyword set has no match. -/
def idxsOf (doc : List (List String)) : Idxs :=
  match doc.find? rowIsHeader with
  | none => {}
  | some hrow =>
    let hc := hrow.map (fun s => lowerChars (trimList s))
    { vol := (findIdxKw ["volume", "size", "lots", "amount", "qty"] hc).getD 5
      profit := (findIdxKw ["profit", "gain"] hc).getD 10
      bal := (findIdxKw ["balance"] hc).getD 11
      time := (findIdxKw ["time", "date"] hc).getD 0
      ty := (findIdxKw ["type", "direction"] hc).getD 2
      swap := findIdxKw ["swap"] hc
      comm := findIdxKw ["commission", "taxes", "fee"] hc }

/-- Reading an optional (swap or commission) column: absent column yields `0`;
a resolved index beyond the row length is the JavaScript crash
`c[idx].textContent` on `undefined`, modelled as `Except.error`. -/
def optColVal (c : List String) : Option ℕ → Except Unit ℚ
  | none => .ok 0
  | some i =>
    match nth c i with
    | some s => .ok (cleanVal (some s))
    | none => .error ()

/-- Processing of a single table row by `processData`: the length guard checks
only the volume, profit, balance and type indices, after which the time cell
(and the swap and commission cells) are read unguarded, so a row that passes
the guard but lacks one of those cells throws. `ok none` is a skipped row,
`ok (some d)` an accepted event. -/
def procRow (I : Idxs) (c : List String) : Except Unit (Option DataPoint) :=
  if c.length > max (max I.vol I.profit) (max I.bal I.ty) then
    match nth c I.time with
    | none => .error ()
    | some tc =>
      let timeStr := String.mk (trimList tc)
      if timePat timeStr then do
        let swapV ← optColVal c I.swap
        let commV ← optColVal c I.comm
        let rawP := cleanVal (nth c I.profit)
        .ok (some
          { time := timeStr
            balance := cleanVal (nth c I.bal)
            profit := rawP + swapV + commV
            volume := cleanVal (nth c I.vol)
            dateKey := dateKeyOf timeStr
            type := some (String.mk (lowerChars (trimList ((nth c I.ty).getD ""))))
            swap := some swapV
            commission := some commV
            rawProfit := some rawP })
      else .ok none
  else .ok none

/-- The row loop of `processData` over all table rows; the first thrown
`TypeError` aborts the whole call, as the exception propagates out of
`forEach`. -/
def dealsOf (I : Idxs) : List (List String) → Except Unit (List DataPoint)
  | [] => .ok []
  | r :: rs => do
    let d? ← procRow I r
    let rest ← dealsOf I rs
    match d? with
    | some d => .ok (d :: rest)
    | none => .ok rest

/-- Stable insertion step of the model of `Array.prototype.sort` with the
numeric date comparator (see `jsLeKey` for the `NaN` tie handling). -/
def insertByKey (x : DataPoint) : List DataPoint → List DataPoint
  | [] => [x]
  | y :: ys => if jsLeKey x y then x :: y :: ys else y :: insertByKey x ys

/-- The chronological sort `deals.sort((a, b) => a.date.getTime() - b.date.getTime())`. -/
def sortDeals : List DataPoint → List DataPoint
  | [] => []
  | x :: xs => insertByKey x (sortDeals xs)

/-- Result of `processData`; `fixedLotSize` is the only `reportMeta` field
derived from the ledger (the scraped string metrics are modelled by `getVal`
directly). -/
structure ParsedResult where
  data : List DataPoint
  initialDeposit : ℚ
  fixedLotSize : Option ℚ
deriving DecidableEq

/-- Initial-deposit extraction: when the label is missing `findIndex` returns
`-1` and the code reads `cells[0]`; an empty or undefined cell text falls back
to the string `"0"`, and an unparsable one to the number `0`. -/
def depositOf (cells : List String) : ℚ :=
  let cell :=
    match findIdxQ (fun c => hasSub "Initial Deposit:".toList c.toList) cells with
    | some i => nth cells (i + 1)
    | none => nth cells 0
  let t := stripSpaces ((cell.getD "").toList)
  let t2 := if t.isEmpty then "0".toList else t
  (jsParseFloatChars t2).getD 0

/-- Fixed-lot detection of `processData`: among the trades (`volume > 0`), if
every volume equals the first one record it, else leave the field unset. -/
def fixedLotCheck : List DataPoint → Option ℚ
  | [] => none
  | t0 :: ts =>
    if (t0 :: ts).all (fun d => decide (d.volume = t0.volume)) then some t0.volume else none

/-- Assembly of the parser result from the extracted deals. -/
def buildResult (cells : List String) (deals : List DataPoint) : ParsedResult :=
  let data := sortDeals deals
  { data := data
    initialDeposit := depositOf cells
    fixedLotSize := fixedLotCheck (data.filter (fun d => decide (0 < d.volume))) }

/-- The parser entry point `processData` of `parser.ts`, over a document given
as its list of table rows (each row its list of `td` texts). -/
def processData (doc : List (List String)) : Except Unit ParsedResult :=
  match dealsOf (idxsOf doc) doc with
  | .error e => .error e
  | .ok deals => .ok (buildResult doc.flatten deals)

/-- The event sequence returned by a parser run; a thrown exception returns
nothing. -/
def dataOfR : Except Unit ParsedResult → List DataPoint
  | .ok p => p.data
  | .error _ => []

/-- The fixed-lot flag of a parser run; a thrown exception records nothing. -/
def fixedLotOfR : Except Unit ParsedResult → Option ℚ
  | .ok p => p.fixedLotSize
  | .error _ => none

/-- One element of the resimulated sequence built in `Simulation.tsx`: the
original deal plus the recomputed balance and profit. -/
structure SimPoint where
  point : DataPoint
  simulatedBalance : ℚ
  simulatedProfit : ℚ
deriving DecidableEq

/-- The `data.map` body of the resimulation in `Simulation.tsx`, threading the
running balance: a trade is rescaled as
`rawProfit * r + swap + commission * r` with `r = lotSize / volume` and each
missing component coerced to `0` by `|| 0`; a non-trade keeps its profit. -/
def resimAux (lotSize : ℚ) (bal : ℚ) : List DataPoint → List SimPoint
  | [] => []
  | d :: ds =>
    let sp :=
      if 0 < d.volume then
        d.rawProfit.getD 0 * (lotSize / d.volume) + d.swap.getD 0 +
          d.commission.getD 0 * (lotSize / d.volume)
      else d.profit
    { point := d, simulatedBalance := bal + sp, simulatedProfit := sp } ::
      resimAux lotSize (bal + sp) ds

/-- The resimulation transform of `Simulation.tsx` (the `simData` map),
starting the running balance at the initial deposit. -/
def resimulate (data : List DataPoint) (initialDeposit lotSize : ℚ) : List SimPoint :=
  resimAux lotSize initialDeposit data

/-- The `statsInput` mapping of `Simulation.tsx`: replace the original profit
and balance of each deal by the simulated ones before computing statistics. -/
def statsInputOf (sim : List SimPoint) : List DataPoint :=
  sim.map (fun s => { s.point with profit := s.simulatedProfit, balance := s.simulatedBalance })

/-- A JavaScript number that may be `NaN` or an infinity; these arise in
`calculateStats` from the unguarded divisions by `totalTrades` and by
`peakBalance`. -/
inductive JSNum where
  | num : ℚ → JSNum
  | nan : JSNum
  | inf : JSNum
  | ninf : JSNum
deriving DecidableEq

/-- JavaScript division of two counts: `0 / 0` is `NaN` and `n / 0` is
`Infinity` for `n > 0`. -/
def jsDivCounts (a b : ℕ) : JSNum :=
  if b = 0 then (if a = 0 then .nan else .inf) else .num ((a : ℚ) / (b : ℚ))

/-- JavaScript division of two finite numbers: `0 / 0` is `NaN` and a nonzero
numerator over zero is a signed infinity. -/
def jsDivQ (a b : ℚ) : JSNum :=
  if b = 0 then (if a = 0 then .nan else if 0 < a then .inf else .ninf)
  else .num (a / b)

/-- Multiplication of a JavaScript number by a positive rational constant. -/
def jsMulPos (x : JSNum) (k : ℚ) : JSNum :=
  match x with
  | .num q => .num (q * k)
  | .nan => .nan
  | .inf => .inf
  | .ninf => .ninf

/-- Model of `Math.max` on two JavaScript numbers: any `NaN` argument makes
the result `NaN`. -/
def jsMax : JSNum → JSNum → JSNum
  | .nan, _ => .nan
  | _, .nan => .nan
  | .inf, _ => .inf
  | _, .inf => .inf
  | .ninf, y => y
  | x, .ninf => x
  | .num a, .num b => .num (max a b)

/-- The JavaScript comparison `x >= 0`: true for non-negative finite numbers
and `Infinity`, false for negative numbers, `-Infinity` and `NaN`. -/
def jsGeZero : JSNum → Bool
  | .num q => decide (0 ≤ q)
  | .inf => true
  | .ninf => false
  | .nan => false

/-- Two-digit zero padding for the fractional part of `toFixed(2)`. -/
def pad2 (n : ℕ) : String :=
  (if n < 10 then "0" else "") ++ toString n

/-- Decimal rendering of a finite number by `toFixed(2)`. -/
def fixed2 (q : ℚ) : String :=
  let n : ℕ := (Int.floor (|q| * 100 + 1 / 2)).toNat
  (if q < 0 then "-" else "") ++ toString (n / 100) ++ "." ++ pad2 (n % 100)

/-- Rendering by `Number.prototype.toFixed(2)`, including the non-finite
values: `NaN` prints as `"NaN"` and the infinities by their names. -/
def jsToFixed2 : JSNum → String
  | .num q => fixed2 q
  | .nan => "NaN"
  | .inf => "Infinity"
  | .ninf => "-Infinity"

/-- The template literal of the `profitTrades` and `lossTrades` fields:
`count (pct%)` with `pct = (count / totalTrades) * 100` rendered by
`toFixed(2)`. -/
def jsPercentString (count total : ℕ) : String :=
  toString count ++ " (" ++ jsToFixed2 (jsMulPos (jsDivCounts count total) 100) ++ "%)"

/-- The mutable accumulators of `calculateStats` in `statistics.ts`. -/
structure StatAcc where
  grossProfit : ℚ := 0
  grossLoss : ℚ := 0
  wins : ℕ := 0
  losses : ℕ := 0
  maxProfit : ℚ := 0
  maxLoss : ℚ := 0
  totalProfitSum : ℚ := 0
  totalLossSum : ℚ := 0
  currentWins : ℕ := 0
  currentLosses : ℕ := 0
  maxConsecWinsCount : ℕ := 0
  maxConsecLossesCount : ℕ := 0
  maxConsecWinsAmt : ℚ := 0
  maxConsecLossesAmt : ℚ := 0
  currentWinAmt : ℚ := 0
  currentLossAmt : ℚ := 0
  peakBalance : ℚ := 0
  maxDDVal : ℚ := 0
  maxDDRel : JSNum := .num 0
deriving DecidableEq

/-- Win/loss, streak and running-extremum bookkeeping for a single event;
only events with `volume > 0` participate. -/
def stepTrade (s : StatAcc) (d : DataPoint) : StatAcc :=
  if 0 < d.volume then
    let s1 :=
      if 0 ≤ d.profit then
        { s with
          grossProfit := s.grossProfit + d.profit
          wins := s.wins + 1
          maxProfit := max s.maxProfit d.profit
          totalProfitSum := s.totalProfitSum + d.profit
          currentWins := s.currentWins + 1
          currentWinAmt := s.currentWinAmt + d.profit
          currentLosses := 0
          currentLossAmt := 0 }
      else
        { s with
          grossLoss := s.grossLoss + |d.profit|
          losses := s.losses + 1
          maxLoss := min s.maxLoss d.profit
          totalLossSum := s.totalLossSum + d.profit
          currentLosses := s.currentLosses + 1
          currentLossAmt := s.currentLossAmt + d.profit
          currentWins := 0
          currentWinAmt := 0 }
    { s1 with
      maxConsecWinsCount := max s1.maxConsecWinsCount s1.currentWins
      maxConsecLossesCount := max s1.maxConsecLossesCount s1.currentLosses
      maxConsecWinsAmt := max s1.maxConsecWinsAmt s1.currentWinAmt
      maxConsecLossesAmt := min s1.maxConsecLossesAmt s1.currentLossAmt }
  else s

/-- Drawdown bookkeeping for a single event, evaluated on every event: raise
the peak, or measure the absolute and relative drawdown against it and keep
the two maxima independently.  The relative drawdown divides by the current
peak with JavaScript semantics: a zero peak gives `NaN` (for a zero drawdown)
or `Infinity`, and `Math.max` propagates a `NaN` into the running maximum. -/
def stepDD (s : StatAcc) (d : DataPoint) : StatAcc :=
  if s.peakBalance < d.balance then { s with peakBalance := d.balance }
  else
    let ddVal := s.peakBalance - d.balance
    let ddRel := jsMulPos (jsDivQ ddVal s.peakBalance) 100
    { s with maxDDVal := max s.maxDDVal ddVal, maxDDRel := jsMax s.maxDDRel ddRel }

/-- One iteration of the `forEach` of `calculateStats`: trade bookkeeping then
drawdown bookkeeping. -/
def stepStat (s : StatAcc) (d : DataPoint) : StatAcc :=
  stepDD (stepTrade s d) d

/-- Initial accumulator state: the running peak starts at the initial
deposit. -/
def initStat (initialDeposit : ℚ) : StatAcc :=
  { peakBalance := initialDeposit }

/-- The fields of the `ReportMeta` record built by `calculateStats` that this
development tracks; the numeric fields are kept as rationals before their
`toFixed` rendering, and `none` models a field left undefined by the
empty-input early return. -/
structure StatsResult where
  totalTrades : ℕ
  totalNetProfit : Option ℚ := none
  grossProfit : Option ℚ := none
  grossLoss : Option ℚ := none
  profitFactor : Option ℚ := none
  avgProfit : Option ℚ := none
  avgLoss : Option ℚ := none
  maxDDVal : Option ℚ := none
  maxDDRel : Option JSNum := none
  profitTrades : Option String := none
  lossTrades : Option String := none
deriving DecidableEq

/-- The statistics engine `calculateStats` of `statistics.ts`: empty input
returns only `totalTrades = 0`; otherwise one left-to-right pass over the
events followed by the derived values, including the division-by-zero guard
on the profit factor. -/
def calculateStats (simulatedData : List DataPoint) (initialDeposit : ℚ) : StatsResult :=
  if simulatedData.isEmpty then { totalTrades := 0 }
  else
    let s := simulatedData.foldl stepStat (initStat initialDeposit)
    let totalTrades := (simulatedData.filter (fun d => decide (0 < d.volume))).length
    { totalTrades := totalTrades
      totalNetProfit := some (s.grossProfit - s.grossLoss)
      grossProfit := some s.grossProfit
      grossLoss := some s.grossLoss
      profitFactor := some (if s.grossLoss = 0 then s.grossProfit else s.grossProfit / s.grossLoss)
      avgProfit := some (if 0 < s.wins then s.totalProfitSum / (s.wins : ℚ) else 0)
      avgLoss := some (if 0 < s.losses then s.totalLossSum / (s.losses : ℚ) else 0)
      maxDDVal := some s.maxDDVal
      maxDDRel := some s.maxDDRel
      profitTrades := some (jsPercentString s.wins totalTrades)
      lossTrades := some (jsPercentString s.losses totalTrades) }

/-- Sum of the non-negative trade profits of a sequence: the value accumulated
into `grossProfit` by the engine, written as a direct recursive sum. -/
def posProfitSum : List DataPoint → ℚ
  | [] => 0
  | d :: ds =>
    (if 0 < d.volume then if 0 ≤ d.profit then d.profit else 0 else 0) + posProfitSum ds

/-- Sum of the absolute values of the negative trade profits of a sequence:
the value accumulated into `grossLoss` by the engine, written as a direct
recursive sum. -/
def negProfitAbsSum : List DataPoint → ℚ
  | [] => 0
  | d :: ds =>
    (if 0 < d.volume then if 0 ≤ d.profit then 0 else |d.profit| else 0) + negProfitAbsSum ds

/-- A well-formed fixed-lot document: header row plus two trade rows of volume
`0.10`. -/
def docW : List (List String) :=
  [["Time", "Type", "Volume", "Profit", "Balance"],
   ["2025.01.01 00:00:00", "buy", "0.10", "100.00", "10100.00"],
   ["2025.01.02 00:00:00", "sell", "0.10", "-50.00", "10050.00"]]

/-- The first trade event extracted from `docW`. -/
def t0W : DataPoint :=
  { time := "2025.01.01 00:00:00", balance := 10100, profit := 100, volume := 1 / 10,
    dateKey := some 20250101000000, type := some "buy", swap := some 0, commission := some 0,
    rawProfit := some 100 }

/-- The second trade event extracted from `docW`. -/
def t1W : DataPoint :=
  { time := "2025.01.02 00:00:00", balance := 10050, profit := -50, volume := 1 / 10,
    dateKey := some 20250102000000, type := some "sell", swap := some 0, commission := some 0,
    rawProfit := some (-50) }

/-- A document whose header places the time column at index 4 while the four
guarded columns sit at indices 0 to 3, so the 4-cell data row passes the
length guard yet has no time cell. -/
def docCrash : List (List String) :=
  [["Type", "Profit", "Volume", "Balance", "Time"],
   ["2025.01.01", "buy", "0.10", "100"]]

/-- A trade event carrying no component breakdown (`rawProfit`, `swap` and
`commission` all absent), with net profit `10` at volume `1`. -/
def dealNoBreakdown : DataPoint :=
  { time := "2025.01.01", balance := 10010, profit := 10, volume := 1,
    dateKey := some 20250101, type := some "buy" }

/-- A trade event with a nonzero swap component: `rawProfit = 10`, `swap = 5`,
`commission = 0` at volume `1`. -/
def dealSwapFive : DataPoint :=
  { time := "2025.01.01", balance := 10015, profit := 15, volume := 1,
    dateKey := some 20250101, type := some "buy", swap := some 5, commission := some 0,
    rawProfit := some 10 }

/-- A trade event with zero swap and commission: `rawProfit = 10` at volume
`1`. -/
def dealCleanTen : DataPoint :=
  { time := "2025.01.01", balance := 10010, profit := 10, volume := 1,
    dateKey := some 20250101, type := some "buy", swap := some 0, commission := some 0,
    rawProfit := some 10 }

/-- A losing trade that pulls the balance from a peak of `100` down to `90`. -/
def dealDrawdown : DataPoint :=
  { time := "2025.01.01", balance := 90, profit := -10, volume := 1,
    dateKey := some 20250101, type := some "sell", swap := some 0, commission := some 0,
    rawProfit := some (-10) }

/-- A balance-only event (`volume = 0`). -/
def dealZeroVol : DataPoint :=
  { time := "2025.01.01", balance := 100, profit := 5, volume := 0,
    dateKey := some 20250101, type := some "balance" }

/-- A balance-only event whose balance equals a zero starting deposit, driving
the relative-drawdown division to `0 / 0`. -/
def dealZeroBalance : DataPoint :=
  { time := "2025.01.01", balance := 0, profit := 0, volume := 0,
    dateKey := some 20250101, type := some "balance" }

/-- A document whose first data row carries a `timePat`-passing but invalid
date (month and day `00`, an Invalid Date in JavaScript) and whose second
data row is a valid, strictly older date. -/
def docUnsorted : List (List String) :=
  [["Time", "Type", "Volume", "Profit", "Balance"],
   ["2025.00.00 00:00:00", "buy", "0.10", "100.00", "10100.00"],
   ["2024.01.01 00:00:00", "sell", "0.10", "-50.00", "10050.00"]]

/-- Every element of an insertion is the inserted element or an original
one. -/
lemma mem_insertByKey {x y : DataPoint} {l : List DataPoint}
    (h : y ∈ insertByKey x l) : y = x ∨ y ∈ l := by
  induction l with
  | nil =>
    simp only [insertByKey, List.mem_singleton] at h
    exact Or.inl h
  | cons z zs ih =>
    simp only [insertByKey] at h
    split at h
    · rcases List.mem_cons.mp h with h1 | h1
      · exact Or.inl h1
      · exact Or.inr h1
    · rcases List.mem_cons.mp h with h1 | h1
      · exact Or.inr (List.mem_cons.mpr (Or.inl h1))
      · rcases ih h1 with h2 | h2
        · exact Or.inl h2
        · exact Or.inr (List.mem_cons.mpr (Or.inr h2))

/-- The inserted element belongs to the insertion. -/
lemma mem_insertByKey_self (x : DataPoint) (l : List DataPoint) :
    x ∈ insertByKey x l := by
  induction l with
  | nil => exact List.mem_singleton.mpr rfl
  | cons z zs ih =>
    simp only [insertByKey]
    split
    · exact List.mem_cons_self x (z :: zs)
    · exact List.mem_cons_of_mem z ih

/-- Every original element survives an insertion. -/
lemma mem_insertByKey_of_mem (x : DataPoint) {y : DataPoint} {l : List DataPoint}
    (h : y ∈ l) : y ∈ insertByKey x l := by
  induction l with
  | nil => exact absurd h (List.not_mem_nil y)
  | cons z zs ih =>
    simp only [insertByKey]
    split
    · exact List.mem_cons_of_mem x h
    · rcases List.mem_cons.mp h with rfl | h2
      · exact List.mem_cons_self y (insertByKey x zs)
      · exact List.mem_cons_of_mem z (ih h2)

/-- Every element of the sorted list is an element of the input. -/
lemma mem_sortDeals_mem {y : DataPoint} {l : List DataPoint}
    (h : y ∈ sortDeals l) : y ∈ l := by
  induction l with
  | nil => exact absurd h (List.not_mem_nil y)
  | cons x xs ih =>
    rcases mem_insertByKey h with rfl | h2
    · exact List.mem_cons_self y xs
    · exact List.mem_cons_of_mem x (ih h2)

/-- Every element of the input is an element of the sorted list. -/
lemma mem_sortDeals_of_mem {y : DataPoint} {l : List DataPoint}
    (h : y ∈ l) : y ∈ sortDeals l := by
  induction l with
  | nil => exact absurd h (List.not_mem_nil y)
  | cons x xs ih =>
    rcases List.mem_cons.mp h with rfl | h2
    · exact mem_insertByKey_self y (sortDeals xs)
    · exact mem_insertByKey_of_mem x (ih h2)

/-- The sort comparator on two valid dates is the numeric comparison of their
keys. -/
lemma jsLeKey_some_some {a b : DataPoint} {x y : ℕ}
    (ha : a.dateKey = some x) (hb : b.dateKey = some y) :
    jsLeKey a b = decide (x ≤ y) := by
  unfold jsLeKey
  rw [ha, hb]

/-- Insertion preserves sortedness under the JavaScript timestamp comparison,
provided every date involved is valid. -/
lemma pairwise_insertByKey_valid (x : DataPoint) {l : List DataPoint}
    (hx : x.dateKey.isSome = true) (hl : ∀ d ∈ l, d.dateKey.isSome = true)
    (h : l.Pairwise (fun a b => jsLeTime a.dateKey b.dateKey = true)) :
    (insertByKey x l).Pairwise (fun a b => jsLeTime a.dateKey b.dateKey = true) := by
  induction l with
  | nil => simp [insertByKey]
  | cons z zs ih =>
    rw [List.pairwise_cons] at h
    obtain ⟨hz, hzs⟩ := h
    obtain ⟨kx, hkx⟩ := Option.isSome_iff_exists.mp hx
    obtain ⟨kz, hkz⟩ := Option.isSome_iff_exists.mp (hl z (List.mem_cons_self z zs))
    simp only [insertByKey]
    split
    · rename_i hle
      rw [jsLeKey_some_some hkx hkz] at hle
      have hxz : kx ≤ kz := of_decide_eq_true hle
      refine List.Pairwise.cons ?_ (List.Pairwise.cons hz hzs)
      intro b hb
      rcases List.mem_cons.mp hb with rfl | hb2
      · rw [hkx, hkz]
        exact decide_eq_true hxz
      · obtain ⟨kb, hkb⟩ :=
          Option.isSome_iff_exists.mp (hl b (List.mem_cons_of_mem z hb2))
        have hzb := hz b hb2
        rw [hkz, hkb] at hzb
        rw [hkx, hkb]
        exact decide_eq_true (le_trans hxz (of_decide_eq_true hzb))
    · rename_i hgt
      rw [jsLeKey_some_some hkx hkz] at hgt
      have hzx : kz ≤ kx := le_of_not_le (fun hc => hgt (decide_eq_true hc))
      refine List.Pairwise.cons ?_ (ih (fun d hd => hl d (List.mem_cons_of_mem z hd)) hzs)
      intro b hb
      rcases mem_insertByKey hb with rfl | hb2
      · rw [hkz, hkx]
        exact decide_eq_true hzx
      · exact hz b hb2

/-- The chronological sort produces a sequence in which every JavaScript
timestamp comparison holds, provided every accepted date is valid. -/
lemma sortDeals_pairwise_valid (l : List DataPoint)
    (hall : ∀ d ∈ l, d.dateKey.isSome = true) :
    (sortDeals l).Pairwise (fun a b => jsLeTime a.dateKey b.dateKey = true) := by
  induction l with
  | nil => simp [sortDeals]
  | cons x xs ih =>
    exact pairwise_insertByKey_valid x (hall x (List.mem_cons_self x xs))
      (fun d hd => hall d (List.mem_cons_of_mem x (mem_sortDeals_mem hd)))
      (ih (fun d hd => hall d (List.mem_cons_of_mem x hd)))

/-- Claim C7 (amended): whenever every event returned by the parser carries a
valid parsed timestamp (its date is not an Invalid Date), the returned
sequence is sorted ascending by parsed timestamp: every adjacent JavaScript
comparison `events[i].timestamp <= events[i+1].timestamp` holds.  With an
Invalid Date in the sequence the comparator ties leave rows unsorted and the
`NaN` comparison itself is false (see the counterexample). -/
theorem claimC7_sort_invariant (doc : List (List String))
    (hvalid : ∀ d ∈ dataOfR (processData doc), d.dateKey.isSome = true) :
    (dataOfR (processData doc)).Pairwise
      (fun a b => jsLeTime a.dateKey b.dateKey = true) := by
  rcases h : dealsOf (idxsOf doc) doc with e | deals
  · simp [processData, dataOfR, h]
  · simp only [processData, h, dataOfR, buildResult] at hvalid ⊢
    exact sortDeals_pairwise_valid deals (fun d hd => hvalid d (mem_sortDeals_of_mem hd))

/-- Claim C7 witness: on the well-formed document `docW` every returned
timestamp is valid and the sequence is sorted. -/
theorem claimC7_witness :
    (dataOfR (processData docW)).Pairwise
      (fun a b => jsLeTime a.dateKey b.dateKey = true) :=
  claimC7_sort_invariant docW (by
    intro d hd
    have h : dataOfR (processData docW) = [t0W, t1W] := by decide
    rw [h] at hd
    rcases List.mem_cons.mp hd with rfl | hd2
    · rfl
    · rw [List.mem_singleton] at hd2
      subst hd2
      rfl)

/-- Claim C7 counterexample: on `docUnsorted` the accepted first row has an
Invalid Date (`2025.00.00`), the comparator treats it as tying with the
strictly older valid second row, so the returned order keeps the invalid row
first, and the adjacent timestamp comparison `NaN <= t` is false — the
unconditional sort invariant fails on the program. -/
theorem claimC7_counterexample :
    (dataOfR (processData docUnsorted)).map (fun d => d.dateKey) =
        [none, some 20240101000000] ∧
      jsLeTime none (some 20240101000000) = false := by
  decide

/-- The simulated profits of the resimulation transform depend only on each
deal, not on the threaded running balance: they are the pointwise rescaling of
the deal list. -/
lemma resimAux_map_profits (L : ℚ) (data : List DataPoint) : ∀ bal : ℚ,
    (resimAux L bal data).map (fun s => s.simulatedProfit) =
      data.map (fun d =>
        if 0 < d.volume then
          d.rawProfit.getD 0 * (L / d.volume) + d.swap.getD 0 +
            d.commission.getD 0 * (L / d.volume)
        else d.profit) := by
  induction data with
  | nil => intro bal; rfl
  | cons d ds ih =>
    intro bal
    simp only [resimAux, List.map_cons]
    rw [ih]

/-- Claim C1 (amended): the resimulation transform maps each trade
(`volume > 0`) to `rawProfit * r + swap + commission * r` with
`r = lotSize / volume` and each absent breakdown component coerced to `0`
(there is no fallback to `(profit / volume) * lotSize`), and each non-trade
event passes through with profit unchanged. -/
theorem claimC1_resim_profit (data : List DataPoint) (initialDeposit lotSize : ℚ) :
    (resimulate data initialDeposit lotSize).map (fun s => s.simulatedProfit) =
      data.map (fun d =>
        if 0 < d.volume then
          d.rawProfit.getD 0 * (lotSize / d.volume) + d.swap.getD 0 +
            d.commission.getD 0 * (lotSize / d.volume)
        else d.profit) :=
  resimAux_map_profits lotSize data initialDeposit

/-- Claim C1 counterexample: on a trade with no component breakdown and net
profit `10` at volume `1`, resimulating at lot size `2` yields `0`, not the
`(originalNetProfit / volume) * L = 20` stated by the claim. -/
theorem claimC1_counterexample :
    (resimulate [dealNoBreakdown] 10000 2).map (fun s => s.simulatedProfit) = [0] ∧
      dealNoBreakdown.profit / dealNoBreakdown.volume * 2 = 20 ∧ (0 : ℚ) ≠ 20 := by
  decide

/-- Claim C3 (amended): for a trade whose swap component is zero or absent and
whose resimulated profit at lot size `L1` is nonzero, the resimulated profits
satisfy `profit(L2) / profit(L1) = L2 / L1`. -/
theorem claimC3_linearity (data : List DataPoint) (dep1 dep2 L1 L2 : ℚ) (i : ℕ)
    (hi : i < data.length)
    (hv : 0 < (data.getD i default).volume)
    (hs : (data.getD i default).swap.getD 0 = 0)
    (hp : ((resimulate data dep1 L1).map (fun s => s.simulatedProfit)).getD i 0 ≠ 0) :
    ((resimulate data dep2 L2).map (fun s => s.simulatedProfit)).getD i 0 /
      ((resimulate data dep1 L1).map (fun s => s.simulatedProfit)).getD i 0 = L2 / L1 := by
  have hm1 := resimAux_map_profits L1 data dep1
  have hm2 := resimAux_map_profits L2 data dep2
  simp only [resimulate] at *
  rw [hm1] at hp ⊢
  rw [hm2]
  have hget : ∀ (L : ℚ),
      ((data.map (fun d =>
        if 0 < d.volume then
          d.rawProfit.getD 0 * (L / d.volume) + d.swap.getD 0 +
            d.commission.getD 0 * (L / d.volume)
        else d.profit)).getD i 0) =
      (if 0 < (data.getD i default).volume then
          (data.getD i default).rawProfit.getD 0 * (L / (data.getD i default).volume) +
            (data.getD i default).swap.getD 0 +
            (data.getD i default).commission.getD 0 * (L / (data.getD i default).volume)
        else (data.getD i default).profit) := by
    intro L
    rw [List.getD_eq_getElem?_getD, List.getElem?_map,
      List.getElem?_eq_getElem hi, List.getD_eq_getElem?_getD,
      List.getElem?_eq_getElem hi]
    rfl
  rw [hget] at hp ⊢
  rw [hget]
  set d := data.getD i default with hd
  rw [if_pos hv] at hp ⊢
  rw [if_pos hv]
  rw [hs] at hp ⊢
  set r := d.rawProfit.getD 0
  set c := d.commission.getD 0
  set v := d.volume
  have hv0 : v ≠ 0 := ne_of_gt hv
  have hkey : ∀ L : ℚ, r * (L / v) + 0 + c * (L / v) = (r + c) * L / v := by
    intro L; field_simp; ring
  rw [hkey] at hp ⊢
  rw [hkey]
  have hL1 : L1 ≠ 0 := by
    intro h0
    apply hp
    rw [h0]
    ring_nf
  have hrc : r + c ≠ 0 := by
    intro h0
    apply hp
    rw [h0]
    ring_nf
  field_simp
  ring

/-- Claim C3 witness: a concrete trade with zero swap, resimulated at lot
sizes `1` and `2`, has profit ratio `2 / 1`. -/
theorem claimC3_witness :
    ((resimulate [dealCleanTen] 10000 2).map (fun s => s.simulatedProfit)).getD 0 0 /
      ((resimulate [dealCleanTen] 10000 1).map (fun s => s.simulatedProfit)).getD 0 0 = 2 / 1 :=
  claimC3_linearity [dealCleanTen] 10000 10000 1 2 0 (by decide) (by decide) (by decide)
    (by decide)

/-- Claim C3 counterexample: a trade with `rawProfit = 10`, `swap = 5`,
`commission = 0` at volume `1` satisfies the claim side condition (its
`L1`-scaled raw profit is nonzero) but has profits `15` at `L1 = 1` and `25`
at `L2 = 2`, whose ratio `25 / 15` differs from `L2 / L1 = 2`. -/
theorem claimC3_counterexample :
    dealSwapFive.rawProfit.getD 0 * (1 / dealSwapFive.volume) ≠ 0 ∧
      ((resimulate [dealSwapFive] 10000 1).map (fun s => s.simulatedProfit)).getD 0 0 = 15 ∧
      ((resimulate [dealSwapFive] 10000 2).map (fun s => s.simulatedProfit)).getD 0 0 = 25 ∧
      ¬ ((25 : ℚ) / 15 = 2 / 1) := by
  decide

/-- Claim C2: the parser is claimed never to raise on any input, skipping
every row with fewer cells than the resolved indices require; but the length
guard covers only the volume, profit, balance and type indices, so on
`docCrash` the data row passes the guard and reading the missing time cell
throws a TypeError. -/
theorem claimC2_crash : processData docCrash = .error () := by
  decide

/-- Drawdown bookkeeping leaves the trade accumulators unchanged. -/
lemma stepDD_trade_fields (s : StatAcc) (d : DataPoint) :
    (stepDD s d).grossProfit = s.grossProfit ∧ (stepDD s d).grossLoss = s.grossLoss ∧
      (stepDD s d).wins = s.wins ∧ (stepDD s d).losses = s.losses := by
  unfold stepDD
  split <;> exact ⟨rfl, rfl, rfl, rfl⟩

/-- Trade bookkeeping leaves the drawdown accumulators unchanged. -/
lemma stepTrade_dd_fields (s : StatAcc) (d : DataPoint) :
    (stepTrade s d).maxDDVal = s.maxDDVal ∧ (stepTrade s d).maxDDRel = s.maxDDRel := by
  unfold stepTrade
  by_cases hv : 0 < d.volume
  · by_cases hp : 0 ≤ d.profit <;> simp [hv, hp]
  · simp [hv]

/-- Effect of one engine step on the gross-profit accumulator. -/
lemma stepStat_grossProfit (s : StatAcc) (d : DataPoint) :
    (stepStat s d).grossProfit =
      s.grossProfit + (if 0 < d.volume then if 0 ≤ d.profit then d.profit else 0 else 0) := by
  unfold stepStat
  rw [(stepDD_trade_fields _ d).1]
  unfold stepTrade
  by_cases hv : 0 < d.volume
  · by_cases hp : 0 ≤ d.profit <;> simp [hv, hp]
  · simp [hv]

/-- Effect of one engine step on the gross-loss accumulator. -/
lemma stepStat_grossLoss (s : StatAcc) (d : DataPoint) :
    (stepStat s d).grossLoss =
      s.grossLoss + (if 0 < d.volume then if 0 ≤ d.profit then 0 else |d.profit| else 0) := by
  unfold stepStat
  rw [(stepDD_trade_fields _ d).2.1]
  unfold stepTrade
  by_cases hv : 0 < d.volume
  · by_cases hp : 0 ≤ d.profit <;> simp [hv, hp]
  · simp [hv]

/-- A non-trade event leaves the win and loss counters unchanged. -/
lemma stepStat_counters_nontrade (s : StatAcc) (d : DataPoint) (hd : ¬ 0 < d.volume) :
    (stepStat s d).wins = s.wins ∧ (stepStat s d).losses = s.losses := by
  unfold stepStat
  refine ⟨((stepDD_trade_fields _ d).2.2.1).trans ?_, ((stepDD_trade_fields _ d).2.2.2).trans ?_⟩ <;>
    simp [stepTrade, hd]

/-- One engine step can only raise the absolute-drawdown maximum. -/
lemma stepStat_ddVal_mono (s : StatAcc) (d : DataPoint) :
    s.maxDDVal ≤ (stepStat s d).maxDDVal := by
  unfold stepStat
  obtain ⟨h1, _⟩ := stepTrade_dd_fields s d
  unfold stepDD
  split
  · simp [h1]
  · simp only [h1]
    exact le_max_left _ _

/-- `Math.max` keeps the running relative-drawdown maximum a non-negative
number, `Infinity` or `NaN`, whatever the new measurement is. -/
lemma jsMax_ddRel_ok (x y : JSNum)
    (h : (∃ q, x = JSNum.num q ∧ 0 ≤ q) ∨ x = JSNum.inf ∨ x = JSNum.nan) :
    (∃ q, jsMax x y = JSNum.num q ∧ 0 ≤ q) ∨
      jsMax x y = JSNum.inf ∨ jsMax x y = JSNum.nan := by
  rcases h with ⟨q, rfl, hq⟩ | rfl | rfl
  · cases y with
    | num b => exact Or.inl ⟨max q b, rfl, le_trans hq (le_max_left q b)⟩
    | nan => exact Or.inr (Or.inr rfl)
    | inf => exact Or.inr (Or.inl rfl)
    | ninf => exact Or.inl ⟨q, rfl, hq⟩
  · cases y with
    | num b => exact Or.inr (Or.inl rfl)
    | nan => exact Or.inr (Or.inr rfl)
    | inf => exact Or.inr (Or.inl rfl)
    | ninf => exact Or.inr (Or.inl rfl)
  · cases y <;> exact Or.inr (Or.inr rfl)

/-- One engine step keeps the running relative-drawdown maximum a
non-negative number, `Infinity` or `NaN`. -/
lemma stepStat_ddRel_ok (s : StatAcc) (d : DataPoint)
    (h : (∃ q, s.maxDDRel = JSNum.num q ∧ 0 ≤ q) ∨
      s.maxDDRel = JSNum.inf ∨ s.maxDDRel = JSNum.nan) :
    (∃ q, (stepStat s d).maxDDRel = JSNum.num q ∧ 0 ≤ q) ∨
      (stepStat s d).maxDDRel = JSNum.inf ∨ (stepStat s d).maxDDRel = JSNum.nan := by
  unfold stepStat
  obtain ⟨_, h2⟩ := stepTrade_dd_fields s d
  have h3 : (∃ q, (stepTrade s d).maxDDRel = JSNum.num q ∧ 0 ≤ q) ∨
      (stepTrade s d).maxDDRel = JSNum.inf ∨ (stepTrade s d).maxDDRel = JSNum.nan := by
    rw [h2]
    exact h
  unfold stepDD
  split
  · exact h3
  · exact jsMax_ddRel_ok _ _ h3

/-- The engine pass accumulates exactly the sum of non-negative trade profits
into `grossProfit`. -/
lemma foldl_grossProfit (l : List DataPoint) : ∀ s : StatAcc,
    (l.foldl stepStat s).grossProfit = s.grossProfit + posProfitSum l := by
  induction l with
  | nil => intro s; simp [posProfitSum]
  | cons d ds ih =>
    intro s
    rw [List.foldl_cons, ih, stepStat_grossProfit, posProfitSum]
    ring

/-- The engine pass accumulates exactly the sum of the magnitudes of negative
trade profits into `grossLoss`. -/
lemma foldl_grossLoss (l : List DataPoint) : ∀ s : StatAcc,
    (l.foldl stepStat s).grossLoss = s.grossLoss + negProfitAbsSum l := by
  induction l with
  | nil => intro s; simp [negProfitAbsSum]
  | cons d ds ih =>
    intro s
    rw [List.foldl_cons, ih, stepStat_grossLoss, negProfitAbsSum]
    ring

/-- On a sequence with no trade events the win and loss counters never move. -/
lemma foldl_counters_nontrade (l : List DataPoint) : ∀ s : StatAcc,
    (∀ d ∈ l, ¬ 0 < d.volume) →
      (l.foldl stepStat s).wins = s.wins ∧ (l.foldl stepStat s).losses = s.losses := by
  induction l with
  | nil => intro s _; exact ⟨rfl, rfl⟩
  | cons d ds ih =>
    intro s h
    rw [List.foldl_cons]
    have hd := stepStat_counters_nontrade s d (h d (List.mem_cons_self d ds))
    have hres := ih (stepStat s d) (fun x hx => h x (List.mem_cons_of_mem d hx))
    exact ⟨hres.1.trans hd.1, hres.2.trans hd.2⟩

/-- The engine pass never lowers the absolute-drawdown maximum. -/
lemma foldl_ddVal_mono (l : List DataPoint) : ∀ s : StatAcc,
    s.maxDDVal ≤ (l.foldl stepStat s).maxDDVal := by
  induction l with
  | nil => intro s; exact le_refl _
  | cons d ds ih =>
    intro s
    rw [List.foldl_cons]
    exact le_trans (stepStat_ddVal_mono s d) (ih (stepStat s d))

/-- Across the whole engine pass the relative-drawdown maximum stays a
non-negative number, `Infinity` or `NaN`. -/
lemma foldl_ddRel_ok (l : List DataPoint) : ∀ s : StatAcc,
    ((∃ q, s.maxDDRel = JSNum.num q ∧ 0 ≤ q) ∨
        s.maxDDRel = JSNum.inf ∨ s.maxDDRel = JSNum.nan) →
      (∃ q, (l.foldl stepStat s).maxDDRel = JSNum.num q ∧ 0 ≤ q) ∨
        (l.foldl stepStat s).maxDDRel = JSNum.inf ∨
        (l.foldl stepStat s).maxDDRel = JSNum.nan := by
  induction l with
  | nil => intro s h; exact h
  | cons d ds ih =>
    intro s h
    rw [List.foldl_cons]
    exact ih (stepStat s d) (stepStat_ddRel_ok s d h)

/-- A nonempty list is not `isEmpty`. -/
lemma isEmpty_false_of_ne_nil {l : List DataPoint} (h : l ≠ []) : l.isEmpty = false := by
  cases l with
  | nil => exact absurd rfl h
  | cons x xs => rfl

/-- Claim C5: on every nonempty event sequence the reported profit factor is
the gross profit itself when the gross loss is exactly zero (never an
`Infinity` or `NaN`), and the quotient gross profit over gross loss otherwise;
gross profit and gross loss are characterised as direct sums over the trade
events. -/
theorem claimC5_profit_factor (data : List DataPoint) (dep : ℚ) (h : data ≠ []) :
    (calculateStats data dep).profitFactor =
      some (if negProfitAbsSum data = 0 then posProfitSum data
            else posProfitSum data / negProfitAbsSum data) := by
  have hb := isEmpty_false_of_ne_nil h
  simp only [calculateStats, hb, Bool.false_eq_true, if_false]
  rw [foldl_grossProfit, foldl_grossLoss]
  simp [initStat]

/-- Claim C5 witness: a single winning trade of profit `10` gives gross loss
`0` and profit factor `10`. -/
theorem claimC5_witness : (calculateStats [dealCleanTen] 0).profitFactor = some 10 := by
  rw [claimC5_profit_factor [dealCleanTen] 0 (by decide)]
  decide

/-- Claim C8 (amended): the maximum absolute drawdown reported by the engine
is always non-negative; the maximum relative drawdown satisfies the
JavaScript comparison `>= 0` (it is a non-negative number or `Infinity`)
unless it is `NaN`, which arises when the running peak is zero while an event
balance equals it, since `0 / 0` is `NaN` and `Math.max` propagates it. -/
theorem claimC8_dd_nonneg (data : List DataPoint) (dep : ℚ) :
    (∀ v, (calculateStats data dep).maxDDVal = some v → 0 ≤ v) ∧
      (∀ x, (calculateStats data dep).maxDDRel = some x →
        jsGeZero x = true ∨ x = JSNum.nan) := by
  by_cases hempty : data.isEmpty
  · constructor <;> intro v hv <;> simp [calculateStats, hempty] at hv
  · have hb : data.isEmpty = false := by
      exact Bool.not_eq_true _ ▸ Bool.of_not_eq_true hempty
    constructor
    · intro v hv
      simp only [calculateStats, hb, Bool.false_eq_true, if_false,
        Option.some.injEq] at hv
      rw [← hv]
      exact foldl_ddVal_mono data (initStat dep)
    · intro x hx
      simp only [calculateStats, hb, Bool.false_eq_true, if_false,
        Option.some.injEq] at hx
      rw [← hx]
      have hrun := foldl_ddRel_ok data (initStat dep) (Or.inl ⟨0, rfl, le_refl 0⟩)
      rcases hrun with ⟨q, hq, hq0⟩ | hinf | hnan
      · rw [hq]
        exact Or.inl (decide_eq_true hq0)
      · rw [hinf]
        exact Or.inl rfl
      · rw [hnan]
        exact Or.inr rfl

/-- Claim C8 witness: a single losing trade from a deposit of `100` down to a
balance of `90` yields a maximal absolute drawdown of `10` and a maximal
relative drawdown of `10`, which satisfies the `>= 0` comparison. -/
theorem claimC8_witness :
    ((0 : ℚ) ≤ 10) ∧ (jsGeZero (JSNum.num 10) = true ∨ JSNum.num 10 = JSNum.nan) :=
  ⟨(claimC8_dd_nonneg [dealDrawdown] 100).1 10 (by decide),
   (claimC8_dd_nonneg [dealDrawdown] 100).2 (JSNum.num 10) (by decide)⟩

/-- Claim C8 counterexample: with the zero starting balance the parser
defaults to and a single zero-balance event, the relative-drawdown division
is `0 / 0`, so the engine reports `maxDDRel = NaN`, for which the JavaScript
comparison `>= 0` is false — the unconditional non-negativity claim fails on
the program. -/
theorem claimC8_counterexample :
    (calculateStats [dealZeroBalance] 0).maxDDRel = some JSNum.nan ∧
      jsGeZero JSNum.nan = false := by
  decide

/-- Claim C10: on a nonempty sequence with no trade events the engine reports
`totalTrades = 0` yet builds the win and loss percentage strings by dividing
by that zero count, so both render as `0 (NaN%)`. -/
theorem claimC10_nan_percent (data : List DataPoint) (dep : ℚ) (hne : data ≠ [])
    (h0 : ∀ d ∈ data, d.volume = 0) :
    (calculateStats data dep).totalTrades = 0 ∧
      (calculateStats data dep).profitTrades = some "0 (NaN%)" ∧
      (calculateStats data dep).lossTrades = some "0 (NaN%)" := by
  have hb := isEmpty_false_of_ne_nil hne
  have hnt : ∀ d ∈ data, ¬ 0 < d.volume := by
    intro d hd
    rw [h0 d hd]
    exact lt_irrefl 0
  have hfilter : data.filter (fun d => decide (0 < d.volume)) = [] := by
    rw [List.filter_eq_nil_iff]
    intro d hd
    simpa using hnt d hd
  obtain ⟨hw, hl⟩ := foldl_counters_nontrade data (initStat dep) hnt
  have hnan : jsPercentString 0 0 = "0 (NaN%)" := by decide
  refine ⟨?_, ?_, ?_⟩
  · simp [calculateStats, hb, hfilter]
  · simp only [calculateStats, hb, Bool.false_eq_true, if_false, hfilter, List.length_nil, hw]
    simp [initStat, hnan]
  · simp only [calculateStats, hb, Bool.false_eq_true, if_false, hfilter, List.length_nil, hl]
    simp [initStat, hnan]

/-- Claim C10 witness: a single balance-only event gives `totalTrades = 0` and
both percentage fields rendered as `0 (NaN%)`. -/
theorem claimC10_witness :
    (calculateStats [dealZeroVol] 100).totalTrades = 0 ∧
      (calculateStats [dealZeroVol] 100).profitTrades = some "0 (NaN%)" ∧
      (calculateStats [dealZeroVol] 100).lossTrades = some "0 (NaN%)" :=
  claimC10_nan_percent [dealZeroVol] 100 (by decide)
    (by
      intro d hd
      rw [List.mem_singleton] at hd
      subst hd
      rfl)

/-- When every trade volume equals the first one, the fixed-lot check records
that volume. -/
lemma fixedLotCheck_all (t0 : DataPoint) (ts : List DataPoint)
    (h : ∀ t ∈ t0 :: ts, t.volume = t0.volume) :
    fixedLotCheck (t0 :: ts) = some t0.volume := by
  simp only [fixedLotCheck]
  rw [if_pos]
  rw [List.all_eq_true]
  intro t ht
  exact decide_eq_true (h t ht)

/-- Two trades of differing volume force the fixed-lot check to record
nothing. -/
lemma fixedLotCheck_ne (l : List DataPoint) (t1 t2 : DataPoint)
    (h1 : t1 ∈ l) (h2 : t2 ∈ l) (hne : t1.volume ≠ t2.volume) :
    fixedLotCheck l = none := by
  cases l with
  | nil => exact absurd h1 (List.not_mem_nil t1)
  | cons t0 ts =>
    simp only [fixedLotCheck]
    rw [if_neg]
    intro hall
    rw [List.all_eq_true] at hall
    have e1 := of_decide_eq_true (hall t1 h1)
    have e2 := of_decide_eq_true (hall t2 h2)
    exact hne (e1.trans e2.symm)

/-- Claim C4: when every trade event of a parsed report has exactly the volume
of the first trade, the parser records that common volume as the fixed lot
size; when two trades have differing volumes, the flag is left unset. -/
theorem claimC4_fixed_lot (doc : List (List String)) :
    (∀ t0 ts,
        (dataOfR (processData doc)).filter (fun d => decide (0 < d.volume)) = t0 :: ts →
        (∀ t ∈ t0 :: ts, t.volume = t0.volume) →
        fixedLotOfR (processData doc) = some t0.volume) ∧
    (∀ t1 t2,
        t1 ∈ (dataOfR (processData doc)).filter (fun d => decide (0 < d.volume)) →
        t2 ∈ (dataOfR (processData doc)).filter (fun d => decide (0 < d.volume)) →
        t1.volume ≠ t2.volume →
        fixedLotOfR (processData doc) = none) := by
  rcases h : dealsOf (idxsOf doc) doc with e | deals
  · constructor
    · intro t0 ts heq _
      simp [processData, dataOfR, h] at heq
    · intro t1 t2 h1 _ _
      simp [processData, dataOfR, h] at h1
  · have hdata : dataOfR (processData doc) = sortDeals deals := by
      simp [processData, h, dataOfR, buildResult]
    have hfl : fixedLotOfR (processData doc) =
        fixedLotCheck ((sortDeals deals).filter (fun d => decide (0 < d.volume))) := by
      simp [processData, h, fixedLotOfR, buildResult]
    rw [hdata, hfl]
    constructor
    · intro t0 ts heq hall
      rw [heq]
      exact fixedLotCheck_all t0 ts hall
    · intro t1 t2 h1 h2 hne
      exact fixedLotCheck_ne _ t1 t2 h1 h2 hne

/-- Claim C4 witness: on the fixed-lot document `docW`, whose two trades both
have volume `0.10`, the parser records `fixedLotSize = 0.10`. -/
theorem claimC4_witness : fixedLotOfR (processData docW) = some t0W.volume :=
  (claimC4_fixed_lot docW).1 t0W [t1W] (by decide)
    (by
      intro t ht
      rcases List.mem_cons.mp ht with rfl | ht2
      · rfl
      · rw [List.mem_singleton] at ht2
        subst ht2
        decide)

/-- JavaScript index `0` is the head of the list. -/
lemma nth_zero_head (l : List String) : nth l 0 = l.head? := by
  cases l <;> rfl

/-- A cell whose trimmed text starts with the label resolves the lookup to the
cell after it. -/
lemma getVal_here (x : String) (post : List String) (label : String)
    (h : leadsWith label.toList (trimList x) = true) :
    getVal (x :: post) label = (nth post 0).map (fun s => String.mk (trimList s)) := by
  simp only [getVal, findIdxQ, h, if_true]
  rfl

/-- A cell whose trimmed text does not start with the label is skipped by the
lookup. -/
lemma getVal_skip (c : String) (cells : List String) (label : String)
    (h : leadsWith label.toList (trimList c) = false) :
    getVal (c :: cells) label = getVal cells label := by
  simp only [getVal, findIdxQ, h, Bool.false_eq_true, if_false]
  rcases hf : findIdxQ (fun s => leadsWith label.toList (trimList s)) cells with _ | i <;> rfl

/-- Claim C9: for every metric label, the lookup takes the (trimmed) text of
the cell immediately following the first cell whose trimmed text starts with
the label, and yields the string `"0"` when no cell carries the label. -/
theorem claimC9_metric_lookup :
    (∀ (label x : String) (pre post : List String),
        (∀ c ∈ pre, leadsWith label.toList (trimList c) = false) →
        leadsWith label.toList (trimList x) = true →
        getVal (pre ++ x :: post) label =
          (post.head?).map (fun s => String.mk (trimList s))) ∧
    (∀ (label : String) (cells : List String),
        (∀ c ∈ cells, leadsWith label.toList (trimList c) = false) →
        getVal cells label = some "0") := by
  constructor
  · intro label x pre post hpre hx
    induction pre with
    | nil =>
      rw [List.nil_append, getVal_here x post label hx, nth_zero_head]
    | cons c cs ih =>
      rw [List.cons_append, getVal_skip c _ label (hpre c (List.mem_cons_self c cs))]
      exact ih (fun d hd => hpre d (List.mem_cons_of_mem c hd))
  · intro label cells hall
    induction cells with
    | nil => rfl
    | cons c cs ih =>
      rw [getVal_skip c cs label (hall c (List.mem_cons_self c cs))]
      exact ih (fun d hd => hall d (List.mem_cons_of_mem c hd))

/-- Claim C9 witness: the label is found and the next cell is returned trimmed;
a missing label yields `"0"`. -/
theorem claimC9_witness :
    getVal ["Profit:", " 42 "] "Profit:" = some "42" ∧
      getVal ["abc"] "Profit:" = some "0" := by
  constructor
  · have h := claimC9_metric_lookup.1 "Profit:" "Profit:" [] [" 42 "]
      (by intro c hc; exact absurd hc (List.not_mem_nil c)) (by decide)
    rw [List.nil_append] at h
    rw [h]
    decide
  · exact claimC9_metric_lookup.2 "Profit:" ["abc"]
      (by
        intro c hc
        rw [List.mem_singleton] at hc
        subst hc
        decide)

/-- Whitespace removal is idempotent. -/
lemma stripSpaces_idem (cs : List Char) : stripSpaces (stripSpaces cs) = stripSpaces cs := by
  simp [stripSpaces, List.filter_filter]

/-- The cleaning pipeline maps the empty text to `0`. -/
lemma processNum_nil : processNum [] = 0 := by decide

/-- The cleaning pipeline is invariant under pre-stripping whitespace. -/
lemma processNum_stripSpaces (cs : List Char) :
    processNum (stripSpaces cs) = processNum cs := by
  unfold processNum
  rw [stripSpaces_idem]

/-- Dash normalisation does not change whether a character is whitespace. -/
lemma isJsSpace_normDash (c : Char) : isJsSpace (normDash c) = isJsSpace c := by
  unfold normDash
  by_cases h : dashChar c
  · rw [if_pos h]
    have h3 := h
    simp only [dashChar, Bool.or_eq_true, beq_iff_eq] at h3
    rcases h3 with (rfl | rfl) | rfl <;> decide
  · rw [if_neg h]

/-- Whitespace removal commutes with dash normalisation. -/
lemma stripSpaces_map_normDash (cs : List Char) :
    stripSpaces (cs.map normDash) = (stripSpaces cs).map normDash := by
  unfold stripSpaces
  rw [List.filter_map]
  congr 1
  apply List.filter_congr
  intro a _
  simp [Function.comp, isJsSpace_normDash]

/-- Dash normalisation is idempotent. -/
lemma normDash_idem (c : Char) : normDash (normDash c) = normDash c := by
  unfold normDash
  by_cases h : dashChar c
  · have h2 : dashChar '-' = false := by decide
    simp [h, h2]
  · simp [h]

/-- Idempotence of dash normalisation, lifted to lists. -/
lemma map_normDash_idem (cs : List Char) :
    (cs.map normDash).map normDash = cs.map normDash := by
  rw [List.map_map]
  congr 1
  funext c
  exact normDash_idem c

/-- The cleaning pipeline is invariant under pre-normalising dashes. -/
lemma processNum_map_normDash (cs : List Char) :
    processNum (cs.map normDash) = processNum cs := by
  unfold processNum
  rw [stripSpaces_map_normDash, map_normDash_idem]

/-- Claim C6: the numeric-cell parser is invariant under whitespace stripping
and dash normalisation, and on the cited inputs parses `"1,234.56"` to
`1234.56`, `"1234,56"` to `1234.56`, `"−12.30"` (Unicode minus) to `-12.3`,
and empty or undefined input to `0` (non-finite parses collapse to `0` by
construction of `processNum`). -/
theorem claimC6_clean_val :
    (∀ s : String,
        cleanVal (some (String.mk (stripSpaces s.toList))) = cleanVal (some s)) ∧
    (∀ s : String,
        cleanVal (some (String.mk (s.toList.map normDash))) = cleanVal (some s)) ∧
    cleanVal (some "1,234.56") = 123456 / 100 ∧
    cleanVal (some "1234,56") = 123456 / 100 ∧
    cleanVal (some "−12.30") = -(123 / 10) ∧
    cleanVal (some "") = 0 ∧
    cleanVal none = 0 := by
  refine ⟨?_, ?_, by decide, by decide, by decide, by decide, by decide⟩
  · intro s
    rw [show cleanVal (some (String.mk (stripSpaces s.toList))) =
          if (stripSpaces s.toList).isEmpty then 0 else processNum (stripSpaces s.toList)
        from rfl,
      show cleanVal (some s) = if s.toList.isEmpty then 0 else processNum s.toList from rfl]
    by_cases h1 : s.toList.isEmpty
    · rw [List.isEmpty_iff.mp h1]
      rfl
    · rw [if_neg h1]
      by_cases h2 : (stripSpaces s.toList).isEmpty
      · rw [if_pos h2, ← processNum_stripSpaces, List.isEmpty_iff.mp h2, processNum_nil]
      · rw [if_neg h2, processNum_stripSpaces]
  · intro s
    rw [show cleanVal (some (String.mk (s.toList.map normDash))) =
          if (s.toList.map normDash).isEmpty then 0 else processNum (s.toList.map normDash)
        from rfl,
      show cleanVal (some s) = if s.toList.isEmpty then 0 else processNum s.toList from rfl]
    have hemp : (s.toList.map normDash).isEmpty = s.toList.isEmpty := by
      cases s.toList <;> rfl
    rw [hemp, processNum_map_normDash]

end QAudit
